import Mathlib

/-!
# Verification of the OpenWebUI agentic research controller

Shallow embedding of the iterative agentic research tool
(`exa_agentic_search.py` and `separate_tools/deep_research.py`):

* the `SEARCH_CONFIG` parser and its field-level validation
  (`_parse_search_config`),
* the section extractor for free-form LLM output (`_extract_section`),
* the search executor (`_agentic_search_with_config`),
* the retry wrappers (`generate_with_retry`,
  `generate_with_parsing_retry`),
* the bounded single-agent iteration loop (`_execute_agentic_search`),
* the multi-agent merge phase of `deep_research`,
* the per-(user, query) session-lock discipline (`agentic_search`,
  `_get_session_lock`, `_cleanup_session_lock`).

Python dictionaries parsed from JSON are modelled by an inductive `Json`
type; machine text by `String`; fallible external calls by `Except`;
`await`ed delays by the rational number of seconds the code would pass to
`asyncio.sleep`.  Every definition is computable, so the theorems below can
be exercised on concrete inputs.
-/

namespace AgenticSearch

/-- JSON values as produced by Python's `json.loads`.  A Python `float` is
only ever probed by `isinstance` checks that it fails (and its `str` form
`dddd.d…` can never match the `^\d{4}-\d{2}-\d{2}$` date pattern), so the
constructor carries no payload.  Python `bool` is a subclass of `int`, which
matters for the `isinstance(..., int)` check on `num_results`. -/
inductive Json where
  | null
  | bool (b : Bool)
  | int (n : Int)
  | float
  | str (s : String)
  | arr (xs : List Json)
  | obj (fields : List (String × Json))

/-- The validated search configuration (`_parse_search_config`'s result
dictionary).  `none` models Python `None`. -/
structure SearchConfig where
  search_type : String
  category : Option String
  num_results : Int
  start_published_date : Option String
  end_published_date : Option String
  include_domains : Option (List String)
  exclude_domains : Option (List String)
  include_text : Option String
  queries : List String
deriving Repr, DecidableEq

/-- `default_config` from `_parse_search_config`. -/
def defaultConfig : SearchConfig :=
  { search_type := "auto"
    category := none
    num_results := 10
    start_published_date := none
    end_published_date := none
    include_domains := none
    exclude_domains := none
    include_text := none
    queries := [] }

/-- `config.get(key)` on the parsed dictionary: a missing key and an
explicit JSON `null` both yield Python `None`. -/
def pyGet (fields : List (String × Json)) (key : String) : Option Json :=
  match fields.lookup key with
  | some Json.null => none
  | o => o

/-- The allowed `search_type` values. -/
def validSearchTypes : List String := ["auto", "neural", "fast", "deep"]

/-- `valid_categories` from `_parse_search_config`. -/
def validCategories : List String :=
  ["news", "research paper", "github", "company", "people",
   "tweet", "pdf", "personal site", "financial report"]

/-- `if config.get("search_type") in [...]`: only an equal string passes the
membership test. -/
def valSearchType (o : Option Json) : String :=
  match o with
  | some (Json.str s) => if s ∈ validSearchTypes then s else "auto"
  | _ => "auto"

/-- `if config.get("category") in valid_categories`. -/
def valCategory (o : Option Json) : Option String :=
  match o with
  | some (Json.str s) => if s ∈ validCategories then some s else none
  | _ => none

/-- `if isinstance(config.get("num_results"), int): max(1, min(25, …))`.
Python `bool` is an `int` (`True ↦ 1`, `False ↦ 0`). -/
def valNumResults (o : Option Json) : Int :=
  match o with
  | some (Json.int n) => max 1 (min 25 n)
  | some (Json.bool b) => max 1 (min 25 (if b then 1 else 0))
  | _ => 10

/-- The ten-character core of the `^\d{4}-\d{2}-\d{2}$` pattern. -/
def dateCore : List Char → Bool
  | [a, b, c, d, h1, e, f, h2, g, k] =>
    a.isDigit && b.isDigit && c.isDigit && d.isDigit && h1 == '-' &&
    e.isDigit && f.isDigit && h2 == '-' && g.isDigit && k.isDigit
  | _ => false

/-- Python's `re.match(r'^\d{4}-\d{2}-\d{2}$', s)`: anchored at both ends,
but `$` also matches just before one trailing newline. -/
def matchesDatePy (s : String) : Bool :=
  let l := s.data
  dateCore l || (l.length == 11 && l.getLast? == some '\n' && dateCore (l.take 10))

/-- `if config.get(k) and date_pattern.match(str(config[k]))`.  A truthy
non-string value `v` has an `str(v)` form (`True`, digits, `dddd.d…`,
`[…]`, `{…}`) that can never match the anchored date pattern, so only
strings can pass; the empty string is falsy and skipped. -/
def valDate (o : Option Json) : Option String :=
  match o with
  | some (Json.str s) => if s ≠ "" && matchesDatePy s then some s else none
  | _ => none

/-- `if isinstance(config.get(k), list): [d for d in … if isinstance(d, str)]`. -/
def valDomains (o : Option Json) : Option (List String) :=
  match o with
  | some (Json.arr xs) =>
    some (xs.filterMap (fun j => match j with | Json.str s => some s | _ => none))
  | _ => none

/-- Splitting a character list at every character satisfying `p`
(structurally recursive so that it evaluates inside the kernel; `acc` holds
the current piece reversed). -/
def splitPredAux (p : Char → Bool) : List Char → List Char → List String
  | [], acc => [String.mk acc.reverse]
  | x :: xs, acc =>
    if p x then String.mk acc.reverse :: splitPredAux p xs []
    else splitPredAux p xs (x :: acc)

/-- Python's `text.split("\n")`. -/
def splitLines (s : String) : List String :=
  splitPredAux (fun c => c == '\n') s.data []

/-- Python's `s.strip()` (whitespace from both ends). -/
def pyStrip (s : String) : String :=
  String.mk (((s.data.dropWhile Char.isWhitespace).reverse.dropWhile
    Char.isWhitespace).reverse)

/-- Python's `s.upper()`. -/
def pyUpper (s : String) : String := String.mk (s.data.map Char.toUpper)

/-- Python's `s.lower()`. -/
def pyLower (s : String) : String := String.mk (s.data.map Char.toLower)

/-- Python's `sep.join(pieces)`. -/
def joinSep (sep : String) : List String → String
  | [] => ""
  | [x] => x
  | x :: xs => x ++ sep ++ joinSep sep xs

/-- `str.split()` in Python: split on runs of whitespace, dropping empty
pieces. -/
def pySplit (s : String) : List String :=
  (splitPredAux Char.isWhitespace s.data []).filter (fun w => w ≠ "")

/-- `if isinstance(config.get("include_text"), str)` and
`len(words) <= 5`. -/
def valIncludeText (o : Option Json) : Option String :=
  match o with
  | some (Json.str s) => if (pySplit s).length ≤ 5 then some s else none
  | _ => none

/-- `[q for q in config["queries"] if isinstance(q, str) and q.strip()]`. -/
def valQueries (o : Option Json) : List String :=
  match o with
  | some (Json.arr xs) =>
    xs.filterMap (fun j => match j with
      | Json.str s => if pyStrip s ≠ "" then some s else none
      | _ => none)
  | _ => []

/-- The validation stage of `_parse_search_config`.  The three regex/JSON
extraction strategies of the source either fail (modelled by `none`, which
is also where a `json.JSONDecodeError` or any other exception lands via the
`except` clauses) or produce a Python dict (the regexes only match
brace-delimited text, so `json.loads` can only return a dict); the function
is total, mirroring the fact that `_parse_search_config` never raises. -/
def parseSearchConfig (extracted : Option (List (String × Json))) : SearchConfig :=
  match extracted with
  | none => defaultConfig
  | some cfg =>
    { search_type := valSearchType (pyGet cfg "search_type")
      category := valCategory (pyGet cfg "category")
      num_results := valNumResults (pyGet cfg "num_results")
      start_published_date := valDate (pyGet cfg "start_published_date")
      end_published_date := valDate (pyGet cfg "end_published_date")
      include_domains := valDomains (pyGet cfg "include_domains")
      exclude_domains := valDomains (pyGet cfg "exclude_domains")
      include_text := valIncludeText (pyGet cfg "include_text")
      queries := valQueries (pyGet cfg "queries") }

/-- `needle in hay` on `List Char` (Python substring containment). -/
def infixOfList (needle : List Char) : List Char → Bool
  | [] => needle.isEmpty
  | c :: t => needle.isPrefixOf (c :: t) || infixOfList needle t

/-- Python's `needle in hay` on strings. -/
def strContains (hay needle : String) : Bool :=
  infixOfList needle.data hay.data

/-- Python's `line.split(":", 1)`: `none` when the line has no colon,
otherwise the text before the first colon and everything after it. -/
def splitFirstColonAux : List Char → List Char → Option (String × String)
  | [], _ => none
  | x :: xs, acc =>
    if x == ':' then some (String.mk acc.reverse, String.mk xs)
    else splitFirstColonAux xs (x :: acc)

def splitFirstColon (s : String) : Option (String × String) :=
  splitFirstColonAux s.data []

/-- `known_markers` from `_extract_section`. -/
def knownMarkers : List String :=
  ["EXTRACTED_INFO:", "EVALUATION:", "DECISION:", "SEARCH_CONFIG:",
   "RESEARCH_SUMMARY:", "KEY_POINTS:", "STATUS_SUMMARY:"]

/-- One line of `_extract_section`'s scan.  State: `(capturing, done,
captured lines)`; `done` models the `break` on hitting a different
marker. -/
def extractStep (marker : String) (st : Bool × Bool × List String) (line : String) :
    Bool × Bool × List String :=
  let (capturing, done, acc) := st
  if done then st
  else
    let lineUpper := pyStrip (pyUpper line)
    if strContains lineUpper (pyUpper marker) then
      match splitFirstColon line with
      | some (_, after) =>
        if pyStrip after ≠ "" then (true, false, acc ++ [pyStrip after]) else (true, false, acc)
      | none => (true, false, acc)
    else if capturing then
      if knownMarkers.any (fun m =>
          strContains lineUpper (pyUpper m) && pyUpper m ≠ pyUpper marker) then
        (capturing, true, acc)
      else
        (capturing, false, acc ++ [line])
    else st

/-- `_extract_section`: scan lines, start capturing at the target marker
(taking any trailing text after the colon of that same line), stop at any
other known marker, join and trim. -/
def extractSection (text : String) (marker : String) : String :=
  let (_, _, acc) := (splitLines text).foldl (extractStep marker) (false, false, [])
  pyStrip (joinSep "\n" acc)

/-- The decision scan of `_execute_agentic_search` (lines 977-982): the
first line containing `DECISION:` decides; `STOP` anywhere on it (case
insensitive) means stop, otherwise — including when no decision line
exists — the default is `CONTINUE`. -/
def extractDecision (response : String) : String :=
  match (splitLines response).find? (fun l => strContains (pyUpper l) "DECISION:") with
  | some l => if strContains (pyUpper l) "STOP" then "STOP" else "CONTINUE"
  | none => "CONTINUE"

/-- The declared domain of a `SearchConfig` (spec §3): `search_type` in its
enum, `category` in the fixed set or absent, `num_results` in `[1, 25]`,
dates matching the source's anchored `YYYY-MM-DD` pattern or absent,
`include_text` of at most 5 words or absent, and `queries` a list of
non-empty strings. -/
def configInDomain (c : SearchConfig) : Prop :=
  c.search_type ∈ validSearchTypes ∧
  (∀ s, c.category = some s → s ∈ validCategories) ∧
  1 ≤ c.num_results ∧ c.num_results ≤ 25 ∧
  (∀ s, c.start_published_date = some s → matchesDatePy s = true) ∧
  (∀ s, c.end_published_date = some s → matchesDatePy s = true) ∧
  (∀ s, c.include_text = some s → (pySplit s).length ≤ 5) ∧
  (∀ q ∈ c.queries, q ≠ "")

/-- `config.get` on a dict after setting key `k` to `v` (the updated entry
shadows any older one, as in a Python dict). -/
def pyVal (v : Json) : Option Json :=
  match v with
  | Json.null => none
  | _ => some v

/-- A normalized search result as built by `_agentic_search_with_config`:
`getattr(r, "url", "")`, `getattr(r, "title", "")`, `getattr(r, "text",
"")` (a missing or `None` text is the empty string). -/
structure Doc where
  url : String
  title : String
  text : String
  published_date : Option String
deriving Repr, DecidableEq

/-- An entry of the `all_sources` accumulator: `{"url": ..., "title": ...}`. -/
structure SourceEntry where
  url : String
  title : String
deriving Repr, DecidableEq

/-- Folding one search result into `all_sources` (lines 899-908): only a
document with truthy `text` is considered; its `(url, title)` is appended
unless some entry already holds that url. -/
def addDoc (sources : List SourceEntry) (d : Doc) : List SourceEntry :=
  if d.text ≠ "" then
    if sources.any (fun s => s.url == d.url) then sources
    else sources ++ [⟨d.url, d.title⟩]
  else sources

/-- One entry of `iteration_content`:
`f"[{title}]\nURL: {url}\n{' '.join(result['text'].split()[:1500])}"`. -/
def fmtContentEntry (d : Doc) : String :=
  "[" ++ d.title ++ "]\nURL: " ++ d.url ++ "\n" ++
    joinSep " " ((pySplit d.text).take 1500)

/-- The `iteration_content` list built per round (lines 899-905): one
formatted entry per result with truthy `text`. -/
def contentEntries (docs : List Doc) : List String :=
  docs.foldl (fun acc d => if d.text ≠ "" then acc ++ [fmtContentEntry d] else acc) []

/-- The ways `_exa_client` can raise (`RuntimeError`s of lines 507-524). -/
inductive ExaClientError where
  | notInstalled
  | apiKeyMissing
  | initFailed
deriving Repr, DecidableEq

/-- The keyword arguments `_agentic_search_with_config` passes to
`exa.search_and_contents` (lines 639-666).  Falsy optional values (Python
`None`, `""`, `[]`) are omitted, modelled as `none`. -/
structure SearchKwargs where
  query : String
  num_results : Int
  category : Option String
  start_published_date : Option String
  end_published_date : Option String
  include_domains : Option (List String)
  exclude_domains : Option (List String)
  include_text : Option String
  use_autoprompt : Option Bool
deriving Repr, DecidableEq

/-- Python truthiness of an optional string (`None` and `""` are falsy). -/
def truthyStr (o : Option String) : Option String :=
  match o with
  | some s => if s = "" then none else some s
  | none => none

/-- Python truthiness of an optional list (`None` and `[]` are falsy). -/
def truthyList (o : Option (List String)) : Option (List String) :=
  match o with
  | some l => if l = [] then none else some l
  | none => none

/-- Building `search_kwargs` from the config and the executed query
(lines 639-666): `num_results` capped at 25, falsy optionals omitted,
`search_type` mapped to `use_autoprompt` (`neural ↦ True`, `fast ↦ False`,
others use the default). -/
def buildKwargs (cfg : SearchConfig) (query : String) : SearchKwargs :=
  { query := query
    num_results := min cfg.num_results 25
    category := truthyStr cfg.category
    start_published_date := truthyStr cfg.start_published_date
    end_published_date := truthyStr cfg.end_published_date
    include_domains := truthyList cfg.include_domains
    exclude_domains := truthyList cfg.exclude_domains
    include_text := truthyStr cfg.include_text
    use_autoprompt :=
      if cfg.search_type = "neural" then some true
      else if cfg.search_type = "fast" then some false
      else none }

/-- `_agentic_search_with_config` (lines 616-690).  `client` models
`self._exa_client()` (which may raise, e.g. on a missing API key) and
`searchFn` models `exa.search_and_contents` together with the result
normalization; both run inside the `try`, whose blanket `except` returns
`[]`.  An empty `queries` list returns `[]` before anything else runs. -/
def searchWithConfig (client : Except ExaClientError Unit)
    (searchFn : SearchKwargs → Except ExaClientError (List Doc))
    (cfg : SearchConfig) : List Doc :=
  match cfg.queries with
  | [] => []
  | q :: _ =>
    match client with
    | Except.error _ => []
    | Except.ok _ =>
      match searchFn (buildKwargs cfg q) with
      | Except.error _ => []
      | Except.ok rs => rs

/-- The error content returned by `agentic_search` when `exa_py` is not
installed (lines 762-767). -/
def exaUnavailableMsg : String :=
  "❌ Search tool unavailable: exa_py module not installed. Please install with: pip install exa_py"

/-- The `EXA_AVAILABLE` gate at the top of `agentic_search`: a missing
dependency short-circuits to the error string; otherwise the rest of the
request runs and produces `rest`. -/
def agenticSearchGate (exaAvailable : Bool) (rest : String) : String :=
  if exaAvailable then rest else exaUnavailableMsg

/-- `wait_time = delay * (2**attempt) + (attempt * 0.5)` in seconds. -/
def backoff (delay : ℚ) (attempt : Nat) : ℚ :=
  delay * 2 ^ attempt + (attempt : ℚ) * (1 / 2)

/-- The attempt loop of `generate_with_retry` (lines 386-418).  `f k` is
the outcome of the `k`-th underlying LLM invocation (the completion call
plus `_normalize_llm_response`); `start` is the global index of the next
invocation, so retries consume consecutive indices.  Arguments: current
`attempt`, remaining loop iterations (`maxRetries - attempt`), the latest
exception (`last_exception`, `none` before any attempt), and the list of
delays awaited so far.  Returns the result (`Except.error last` models the
final `raise last_exception`), the number of attempts made, and the awaited
delays. -/
def retryAux (delay : ℚ) (f : Nat → Except E R) (start : Nat) :
    Nat → Nat → Option E → List ℚ → Except (Option E) R × Nat × List ℚ
  | attempt, 0, lastE, delays => (Except.error lastE, attempt, delays)
  | attempt, remaining + 1, _, delays =>
    match f (start + attempt) with
    | Except.ok v => (Except.ok v, attempt + 1, delays)
    | Except.error e =>
      -- `if attempt < max_retries - 1: await asyncio.sleep(wait_time)`
      let delays' := if remaining > 0 then delays ++ [backoff delay attempt] else delays
      retryAux delay f start (attempt + 1) remaining (some e) delays'

/-- `generate_with_retry(max_retries, delay, …)` over the invocation stream
`f`, starting at global invocation index `start`. -/
def generate_with_retry (maxRetries : Nat) (delay : ℚ) (f : Nat → Except E R)
    (start : Nat) : Except (Option E) R × Nat × List ℚ :=
  retryAux delay f start 0 maxRetries none []

/-- Exceptions observable in `generate_with_parsing_retry`'s outer loop:
a failure propagated out of the inner `generate_with_retry`, or the
`ValueError` raised when the response lacks every expected key. -/
inductive OuterError (E : Type) where
  | inner (e : Option E)
  | shape
deriving Repr, DecidableEq

/-- The outer loop of `generate_with_parsing_retry` (lines 431-471).  A
response dict is modelled by its key list.  Each outer iteration calls
`generate_with_retry` with a fresh full `maxRetries` budget, consuming
invocations from the shared stream `f` starting at `start`; a successful
result lacking every expected key raises and is retried with the same
backoff formula.  Returns the result, the total number of underlying
invocations, and the outer delays awaited. -/
def parsingAux (maxRetries : Nat) (delay : ℚ) (expectedKeys : List String)
    (f : Nat → Except E (List String)) :
    Nat → Nat → Nat → Option (OuterError E) → List ℚ →
    Except (Option (OuterError E)) (List String) × Nat × List ℚ
  | _, 0, start, lastE, delays => (Except.error lastE, start, delays)
  | attempt, remaining + 1, start, _, delays =>
    let inner := generate_with_retry maxRetries delay f start
    let start' := start + inner.2.1
    match inner.1 with
    | Except.ok resp =>
      if expectedKeys.isEmpty then (Except.ok resp, start', delays)
      else if expectedKeys.any (fun k => resp.contains k) then (Except.ok resp, start', delays)
      else
        let delays' := if remaining > 0 then delays ++ [backoff delay attempt] else delays
        parsingAux maxRetries delay expectedKeys f (attempt + 1) remaining start'
          (some OuterError.shape) delays'
    | Except.error e =>
      let delays' := if remaining > 0 then delays ++ [backoff delay attempt] else delays
      parsingAux maxRetries delay expectedKeys f (attempt + 1) remaining start'
        (some (OuterError.inner e)) delays'

/-- `generate_with_parsing_retry(max_retries, delay, expected_keys, …)`
over the invocation stream `f`. -/
def generate_with_parsing_retry (maxRetries : Nat) (delay : ℚ)
    (expectedKeys : List String) (f : Nat → Except E (List String)) :
    Except (Option (OuterError E)) (List String) × Nat × List ℚ :=
  parsingAux maxRetries delay expectedKeys f 0 maxRetries 0 none []

/-- The environment of one round of `_execute_agentic_search`: the
documents the search returns, the agent's response text (after the
`choices`/`content` extraction), and the dict extracted by
`_parse_search_config`'s regex/JSON stage from that response (`none` when
all three strategies fail or `json.loads` raises). -/
structure RoundEnv where
  docs : List Doc
  response : String
  configJson : Option (List (String × Json))

/-- The loop-carried state of `_execute_agentic_search` (lines 870-881):
`iteration` counts executed rounds. -/
structure LoopState where
  iteration : Nat
  all_findings : List String
  all_sources : List SourceEntry
  search_config : SearchConfig
  final_agent_response : Option String
deriving Repr, DecidableEq

/-- The `while iteration < max_iterations` loop (lines 884-1003), with
`fuel = max_iterations - iteration` so that the guard `iteration <
max_iterations` is `fuel > 0` and the inner `if iteration <
max_iterations` check after the increment is `fuel - 1 > 0`.  Each round:
increment the counter, fold the round's search results into `all_sources`,
append non-placeholder `EXTRACTED_INFO` to `all_findings`, read the
decision; on `STOP` record the terminal response and break; otherwise parse
a new config and break when it has no queries. -/
def loopGo (env : Nat → RoundEnv) : Nat → LoopState → LoopState
  | 0, st => st
  | fuel + 1, st =>
    let iter := st.iteration + 1
    let round := env iter
    let sources := round.docs.foldl addDoc st.all_sources
    let extracted := extractSection round.response "EXTRACTED_INFO:"
    let findings :=
      if extracted ≠ "" && !(["no new content", "none", ""].contains (pyLower extracted))
      then st.all_findings ++ ["[Iteration " ++ toString iter ++ "]\n" ++ extracted]
      else st.all_findings
    let st' : LoopState :=
      { iteration := iter
        all_findings := findings
        all_sources := sources
        search_config := st.search_config
        final_agent_response := none }
    if extractDecision round.response = "STOP" then
      { st' with final_agent_response := some round.response }
    else if fuel > 0 then
      let newConfig := parseSearchConfig round.configJson
      if newConfig.queries ≠ [] then
        loopGo env fuel { st' with search_config := newConfig }
      else st'
    else st'

/-- The initial `search_config` (lines 876-881): only `search_type`,
`category`, `num_results` and `queries` are set; the remaining keys are
absent, i.e. Python `None`. -/
def initialLoopState (query : String) : LoopState :=
  { iteration := 0
    all_findings := []
    all_sources := []
    search_config := { defaultConfig with queries := [query] }
    final_agent_response := none }

/-- The whole iterative phase of `_execute_agentic_search` for
`max_iterations = N`. -/
def runAgenticLoop (env : Nat → RoundEnv) (N : Nat) (query : String) : LoopState :=
  loopGo env N (initialLoopState query)

/-- The fixed reply when no findings were accumulated (lines 1009-1013). -/
def noInfoMsg : String :=
  "I was unable to find relevant information for your request. Please try rephrasing your question."

/-- Phase 3 output formatting (lines 1005-1033). -/
def formatFinalOutput (st : LoopState) : String :=
  if st.all_findings = [] then noInfoMsg
  else
    let sourcesLine := "\n\nSOURCES_CONSULTED: " ++ toString st.all_sources.length
    match st.final_agent_response with
    | some resp =>
      let summary := extractSection resp "RESEARCH_SUMMARY:"
      let keyPoints := extractSection resp "KEY_POINTS:"
      if summary ≠ "" then
        "RESEARCH_SUMMARY:\n" ++ summary ++
          (if keyPoints ≠ "" then "\n\nKEY_POINTS:\n" ++ keyPoints else "") ++ sourcesLine
      else
        "RESEARCH_FINDINGS:\n" ++ joinSep "\n\n" st.all_findings ++ sourcesLine
    | none =>
      "RESEARCH_FINDINGS:\n" ++ joinSep "\n\n" st.all_findings ++ sourcesLine

/-- A sub-agent's result (`SubAgentFindings` in `deep_research.py`). -/
structure SubAgentFindings where
  objective : String
  rounds_completed : Nat
  findings_summary : String
  sources_consulted : List String
  total_content_gathered : Nat
deriving Repr, DecidableEq

/-- The `valid_findings` filter of `deep_research` (lines 304-310): walk
the `gather(…, return_exceptions=True)` results in order, skipping
exceptions and appending successes. -/
def validFindings (results : List (Except String SubAgentFindings)) :
    List SubAgentFindings :=
  results.foldl (fun acc r => match r with
    | Except.error _ => acc
    | Except.ok f => acc ++ [f]) []

/-- The message returned when every sub-agent failed (line 312). -/
def allFailedMsg : String := "❌ All sub-agents failed. Please try again."

/-- Phases 3 (merge) and 4 (synthesis) of `deep_research` (lines 301-330):
`asyncio.gather` with `return_exceptions=True` is modelled by each
sub-agent contributing an independent `Except` outcome; `synth` models the
`_synthesize_all_findings` LLM call, and the returned `Nat` counts how many
times it ran. -/
def coordinatorMerge (results : List (Except String SubAgentFindings))
    (synth : List SubAgentFindings → String) : String × Nat :=
  let valid := validFindings results
  if valid.isEmpty then (allFailedMsg, 0)
  else (synth valid, 1)

/-- A crawled result of `deep_research._search_and_get_content` (an
`exa.get_contents` result: a `None` text is modelled by `""`). -/
structure CrawlResult where
  url : String
  title : String
  text : String
deriving Repr, DecidableEq

/-- The source-tracking loop of `_search_and_get_content` (lines 716-731):
each crawled result with truthy, non-whitespace text appends its url to the
caller's `sources_list`. -/
def appendCrawlSources (init : List String) (results : List CrawlResult) : List String :=
  results.foldl (fun acc r =>
    if r.text ≠ "" && pyStrip r.text ≠ "" then acc ++ [r.url] else acc) init

/-- The process-wide `_active_sessions` map: fingerprint key to the
`locked()` state of its `asyncio.Lock`.  Keys are unique (it models a
Python dict). -/
abbrev SessionTable := List (String × Bool)

/-- `_get_session_lock` (lines 734-739): create an (unlocked) lock on first
access, leave the table unchanged otherwise. -/
def getSessionLockTable (t : SessionTable) (k : String) : SessionTable :=
  match t.lookup k with
  | none => t ++ [(k, false)]
  | some _ => t

/-- `session_lock.locked()` for the key's lock (`false` when absent). -/
def lockHeld (t : SessionTable) (k : String) : Bool :=
  (t.lookup k).getD false

/-- Entering `async with session_lock`. -/
def acquireIn (t : SessionTable) (k : String) : SessionTable :=
  t.map (fun p => if p.1 == k then (p.1, true) else p)

/-- `_cleanup_session_lock` (lines 741-746): `del` the entry. -/
def cleanupSession (t : SessionTable) (k : String) : SessionTable :=
  t.filter (fun p => p.1 != k)

/-- The observable outcome of one `agentic_search` invocation with respect
to the session guard. -/
inductive SessionOutcome (A E : Type) where
  | rejected
  | completed (a : A)
  | errored (e : E)
deriving Repr, DecidableEq

/-- The concurrency-control skeleton of `agentic_search` (lines 769-805):
fetch-or-create the session lock, reject immediately when it is held,
otherwise acquire it, run the body (which may succeed or throw — the
`finally` runs either way), and clean the entry up.  The table returned is
the `_active_sessions` state after the call. -/
def sessionRun (t : SessionTable) (k : String) (body : Except E A) :
    SessionOutcome A E × SessionTable :=
  let t1 := getSessionLockTable t k
  if lockHeld t1 k then (SessionOutcome.rejected, t1)
  else
    let t2 := acquireIn t1 k
    let t3 := cleanupSession t2 k
    ((match body with
      | Except.ok a => SessionOutcome.completed a
      | Except.error e => SessionOutcome.errored e), t3)

/-! ## Helper lemmas -/

theorem range_map_shift {α : Type} (g : Nat → α) (a r : Nat) :
    (List.range (r + 1)).map (fun i => g (a + i)) =
      g a :: (List.range r).map (fun i => g (a + 1 + i)) := by
  rw [List.range_succ_eq_map, List.map_cons, List.map_map]
  congr 1
  apply List.map_congr_left
  intro i _
  exact congrArg g (by omega)

theorem retryAux_always_fail {E R : Type} (delay : ℚ) (e : Nat → E)
    (f : Nat → Except E R) (hf : ∀ k, f k = Except.error (e k)) (start : Nat) :
    ∀ (r a : Nat) (lastE : Option E) (ds : List ℚ),
      retryAux (R := R) delay f start a (r + 1) lastE ds =
        (Except.error (some (e (start + a + r))), a + r + 1,
          ds ++ (List.range r).map (fun i => backoff delay (a + i))) := by
  intro r
  induction r with
  | zero =>
    intro a lastE ds
    simp [retryAux, hf (start + a)]
  | succ n ih =>
    intro a lastE ds
    rw [retryAux, hf (start + a)]
    simp only [Nat.succ_sub_one, gt_iff_lt, Nat.succ_pos, if_pos]
    rw [ih (a + 1)]
    rw [range_map_shift (backoff delay) a n]
    refine congrArg₂ Prod.mk (congrArg Except.error (congrArg some (congrArg e (by omega)))) ?_
    refine congrArg₂ Prod.mk (by omega) ?_
    simp

theorem retryAux_first_ok {E R : Type} (delay : ℚ) (g : Nat → Except E R)
    (resp : Nat → R) (hg : ∀ k, g k = Except.ok (resp k)) (start m : Nat) :
    retryAux delay g start 0 (m + 1) none [] = (Except.ok (resp start), 1, []) := by
  rw [retryAux, hg (start + 0)]
  simp

theorem generate_with_retry_always_fail {E R : Type} (m : Nat) (delay : ℚ) (e : Nat → E)
    (f : Nat → Except E R) (hf : ∀ k, f k = Except.error (e k)) (start : Nat) :
    generate_with_retry (m + 1) delay f start =
      (Except.error (some (e (start + m))), m + 1,
        (List.range m).map (fun i => backoff delay i)) := by
  rw [generate_with_retry, retryAux_always_fail delay e f hf start m 0 none []]
  simp

theorem parsingAux_always_fail {E : Type} (m : Nat) (delay : ℚ) (keys : List String)
    (e : Nat → E) (f : Nat → Except E (List String))
    (hf : ∀ k, f k = Except.error (e k)) :
    ∀ (r a start : Nat) (lastE : Option (OuterError E)) (ds : List ℚ),
      parsingAux (m + 1) delay keys f a (r + 1) start lastE ds =
        (Except.error (some (OuterError.inner (some (e (start + r * (m + 1) + m))))),
          start + (r + 1) * (m + 1),
          ds ++ (List.range r).map (fun i => backoff delay (a + i))) := by
  intro r
  induction r with
  | zero =>
    intro a start lastE ds
    rw [parsingAux, generate_with_retry_always_fail m delay e f hf start]
    simp [parsingAux]
  | succ n ih =>
    intro a start lastE ds
    rw [parsingAux, generate_with_retry_always_fail m delay e f hf start]
    simp only [gt_iff_lt, Nat.succ_pos, if_pos]
    rw [ih (a + 1)]
    rw [range_map_shift (backoff delay) a n]
    refine congrArg₂ Prod.mk
      (congrArg Except.error (congrArg some (congrArg OuterError.inner
        (congrArg some (congrArg e (by ring)))))) ?_
    refine congrArg₂ Prod.mk (by ring) ?_
    simp

theorem parsingAux_shape_fail {E : Type} (m : Nat) (delay : ℚ) (keys : List String)
    (g : Nat → Except E (List String)) (resp : Nat → List String)
    (hkeys : keys ≠ []) (hg : ∀ k, g k = Except.ok (resp k))
    (hno : ∀ k s, s ∈ keys → (resp k).contains s = false) :
    ∀ (r a start : Nat) (lastE : Option (OuterError E)) (ds : List ℚ),
      parsingAux (m + 1) delay keys g a (r + 1) start lastE ds =
        (Except.error (some OuterError.shape), start + (r + 1),
          ds ++ (List.range r).map (fun i => backoff delay (a + i))) := by
  have hone : ∀ start, generate_with_retry (E := E) (m + 1) delay g start =
      (Except.ok (resp start), 1, []) := fun start =>
    retryAux_first_ok delay g resp hg start m
  have hmem : ∀ start, ∀ s ∈ keys, s ∉ resp start := by
    intro start s hs
    simpa using hno start s hs
  have hanyfalse : ∀ start, keys.any (fun k => (resp start).contains k) = false := by
    intro start
    rw [List.any_eq_false]
    intro s hs
    simpa using hno start s hs
  intro r
  induction r with
  | zero =>
    intro a start lastE ds
    rw [parsingAux, hone start]
    simp [parsingAux, List.isEmpty_eq_false_iff_exists_mem.mpr
      (List.exists_mem_of_ne_nil keys hkeys)]
    exact hmem start
  | succ n ih =>
    intro a start lastE ds
    rw [parsingAux, hone start]
    simp only [gt_iff_lt, Nat.succ_pos, if_pos,
      List.isEmpty_eq_false_iff_exists_mem.mpr (List.exists_mem_of_ne_nil keys hkeys),
      Bool.false_eq_true, if_false, hanyfalse start]
    rw [ih (a + 1)]
    rw [range_map_shift (backoff delay) a n]
    refine congrArg₂ Prod.mk rfl ?_
    refine congrArg₂ Prod.mk (by omega) ?_
    simp

/-! ## Claim theorems -/

/-- **C3** — For `max_retries = 3` and `base_delay = 3`, if every underlying
LLM invocation fails (`f k = error (e k)`), `generate_with_retry` makes
exactly 3 attempts, awaits exactly the two delays `3·2⁰ + 0·0.5 = 3.0 s`
and `3·2¹ + 1·0.5 = 6.5 s` (no delay after the final failed attempt, so
the delay list has length 2), and re-raises the last exception — the one
from attempt index 2 — unchanged. -/
theorem claim_C3_retry_backoff {E R : Type} (e : Nat → E) (f : Nat → Except E R)
    (h : ∀ k, f k = Except.error (e k)) :
    generate_with_retry 3 3 f 0 =
      (Except.error (some (e 2)), 3, [3, 13/2]) := by
  rw [show (3 : Nat) = 2 + 1 from rfl, generate_with_retry_always_fail 2 3 e f h 0]
  norm_num [backoff, List.range_succ]

/-- Witness for C3: a concrete always-failing operation. -/
theorem claim_C3_retry_backoff_witness :
    generate_with_retry 3 3 (fun k => (Except.error k : Except Nat Unit)) 0 =
      (Except.error (some 2), 3, [3, 13/2]) :=
  claim_C3_retry_backoff (fun k => k) (fun k => Except.error k) (fun _ => rfl)

/-- **C4** — In `generate_with_parsing_retry` with `max_retries = M ≥ 1`:
a successful inner call whose dict lacks every expected key counts as a
failed outer attempt and is retried through the same backoff schedule
(`delay·2ᵏ + k·0.5` between outer attempts), with a fresh inner
`generate_with_retry` budget per outer attempt; hence when every underlying
invocation fails the total number of underlying LLM invocations is exactly
`M · M` (M outer attempts, each re-invoking a fully-retried inner call of M
attempts), and when the inner call always succeeds with a key-less dict the
M outer attempts each consume one invocation and the shape error is finally
re-raised. -/
theorem claim_C4_parsing_retry {E : Type} (M : Nat) (delay : ℚ) (e : Nat → E)
    (f g : Nat → Except E (List String)) (keys : List String)
    (resp : Nat → List String) (hM : 1 ≤ M) :
    ((∀ k, f k = Except.error (e k)) →
      generate_with_parsing_retry M delay keys f =
        (Except.error (some (OuterError.inner (some (e (M * M - 1))))), M * M,
          (List.range (M - 1)).map (fun i => backoff delay i))) ∧
    (keys ≠ [] → (∀ k, g k = Except.ok (resp k)) →
      (∀ k s, s ∈ keys → (resp k).contains s = false) →
      generate_with_parsing_retry M delay keys g =
        (Except.error (some OuterError.shape), M,
          (List.range (M - 1)).map (fun i => backoff delay i))) := by
  obtain ⟨m, rfl⟩ : ∃ m, M = m + 1 := ⟨M - 1, by omega⟩
  constructor
  · intro hf
    rw [generate_with_parsing_retry, parsingAux_always_fail m delay keys e f hf m 0 0 none []]
    refine congrArg₂ Prod.mk
      (congrArg Except.error (congrArg some (congrArg OuterError.inner
        (congrArg some (congrArg e (by
          have h : (m + 1) * (m + 1) = m * (m + 1) + (m + 1) := by ring
          omega)))))) ?_
    refine congrArg₂ Prod.mk (by omega) ?_
    simp
  · intro hkeys hg hno
    rw [generate_with_parsing_retry,
      parsingAux_shape_fail m delay keys g resp hkeys hg hno m 0 0 none []]
    simp

/-- Witness for C4 at `M = 2`, `delay = 3`: an always-failing stream makes
`2·2 = 4` invocations; an always-succeeding key-less stream makes 2 outer
attempts of one invocation each; both await the single outer delay `3`. -/
theorem claim_C4_parsing_retry_witness :
    generate_with_parsing_retry 2 3 ["choices"]
        (fun k => (Except.error k : Except Nat (List String))) =
      (Except.error (some (OuterError.inner (some 3))), 4, [3]) ∧
    generate_with_parsing_retry 2 3 ["choices"]
        (fun _ => (Except.ok ["foo"] : Except Nat (List String))) =
      (Except.error (some OuterError.shape), 2, [3]) := by
  have h := claim_C4_parsing_retry 2 3 (fun k => k)
    (fun k => (Except.error k : Except Nat (List String)))
    (fun _ => (Except.ok ["foo"] : Except Nat (List String)))
    ["choices"] (fun _ => ["foo"]) (by norm_num)
  refine ⟨?_, ?_⟩
  · have := h.1 (fun _ => rfl)
    simpa [backoff, List.range_succ] using this
  · have := h.2 (by simp) (fun _ => rfl) (fun k s hs => by simp at hs; subst hs; rfl)
    simpa [backoff, List.range_succ] using this

/-- **C7** — `_agentic_search_with_config` uses only the first element of
`config.queries` (swapping the tail changes nothing); an empty `queries`
list yields `[]` (a logged warning, not an error — the function still
returns normally); and any exception raised inside the call — whether from
building the client or from the search invocation itself — yields `[]`
instead of propagating to the iteration loop. -/
theorem claim_C7_search_executor (client : Except ExaClientError Unit)
    (searchFn : SearchKwargs → Except ExaClientError (List Doc))
    (cfg : SearchConfig) (q : String) (t t' : List String) (err : ExaClientError)
    (hfail : searchFn (buildKwargs cfg q) = Except.error err) :
    searchWithConfig client searchFn { cfg with queries := [] } = [] ∧
    searchWithConfig (Except.error err) searchFn cfg = [] ∧
    searchWithConfig client searchFn { cfg with queries := q :: t } = [] ∧
    searchWithConfig client searchFn { cfg with queries := q :: t } =
      searchWithConfig client searchFn { cfg with queries := q :: t' } := by
  refine ⟨rfl, ?_, ?_, ?_⟩
  · rcases cfg with ⟨st, cat, nr, sp, ep, idm, edm, it, qs⟩
    cases qs <;> rfl
  · cases client with
    | error _ => rfl
    | ok _ =>
      show (match searchFn (buildKwargs { cfg with queries := q :: t } q) with
        | Except.error _ => ([] : List Doc)
        | Except.ok rs => rs) = []
      have : buildKwargs { cfg with queries := q :: t } q = buildKwargs cfg q := rfl
      rw [this, hfail]
  · cases client <;> rfl

/-- Witness for C7: a concrete config and a search call that raises. -/
theorem claim_C7_search_executor_witness :
    searchWithConfig (Except.ok ()) (fun _ => Except.error ExaClientError.initFailed)
        { defaultConfig with queries := [] } = [] ∧
    searchWithConfig (Except.error ExaClientError.initFailed)
        (fun _ => Except.error ExaClientError.initFailed) defaultConfig = [] ∧
    searchWithConfig (Except.ok ()) (fun _ => Except.error ExaClientError.initFailed)
        { defaultConfig with queries := ["q"] } = [] ∧
    searchWithConfig (Except.ok ()) (fun _ => Except.error ExaClientError.initFailed)
        { defaultConfig with queries := ["q"] } =
      searchWithConfig (Except.ok ()) (fun _ => Except.error ExaClientError.initFailed)
        { defaultConfig with queries := ["q", "ignored"] } := by
  have h := claim_C7_search_executor (Except.ok ())
    (fun _ => Except.error ExaClientError.initFailed) defaultConfig "q" [] ["ignored"]
    ExaClientError.initFailed rfl
  exact ⟨h.1, h.2.1, h.2.2.1, h.2.2.2⟩

/-- **C8, counterexample** — The claim says a missing API key (a
configuration error) is surfaced immediately as a user-facing error string.
In the code, `self._exa_client()` is only called inside the `try` of
`_agentic_search_with_config`, whose blanket `except` returns `[]`: with
the key missing, the round's search silently yields `[]` even though the
search backend would have returned a document, every round accumulates
nothing, and the request ends with the generic no-information message —
not a credentials error string. -/
theorem claim_C8_counterexample :
    searchWithConfig (Except.error ExaClientError.apiKeyMissing)
        (fun _ => Except.ok [⟨"https://example.com", "Example", "Paris is the capital of France.", none⟩])
        { defaultConfig with queries := ["capital of France"] } = [] ∧
    formatFinalOutput (runAgenticLoop
        (fun _ => ⟨searchWithConfig (Except.error ExaClientError.apiKeyMissing)
          (fun _ => Except.ok [⟨"https://example.com", "Example", "Paris is the capital of France.", none⟩])
          { defaultConfig with queries := ["capital of France"] }, "", none⟩)
        3 "capital of France") = noInfoMsg ∧
    noInfoMsg ≠ exaUnavailableMsg := by
  refine ⟨rfl, by decide, by decide⟩

/-- **C8, amended** — Only the missing-dependency configuration error
(`exa_py` not installed, checked by the `EXA_AVAILABLE` gate before any
search) is fatal and surfaced immediately as a user-facing error string
with no retry; a missing API key raises inside the search executor and is
caught there, degrading to an empty result list for the round instead of
being surfaced. -/
theorem claim_C8_amended (rest : String) (err : ExaClientError)
    (searchFn : SearchKwargs → Except ExaClientError (List Doc))
    (cfg : SearchConfig) :
    agenticSearchGate false rest = exaUnavailableMsg ∧
    searchWithConfig (Except.error err) searchFn cfg = [] := by
  refine ⟨rfl, ?_⟩
  rcases cfg with ⟨st, cat, nr, sp, ep, idm, edm, it, qs⟩
  cases qs <;> rfl

/-- **C5** — the session guard: when the lock for `(user_id, query)` is
already held, a second invocation returns the rejection immediately and
changes nothing (the non-blocking `locked()` check, not a queued wait);
when it is free, the invocation completes (on both the success and the
exception path of the body — never `rejected`), and afterwards the
fingerprint's entry has been removed from `_active_sessions`, so a
subsequent invocation with the same key is not rejected. -/
theorem lookup_cleanup_none (u : SessionTable) (k : String) :
    (cleanupSession u k).lookup k = none := by
  unfold cleanupSession
  induction u with
  | nil => rfl
  | cons p rest ih =>
    rcases p with ⟨a, b⟩
    rw [List.filter_cons]
    by_cases hp : a = k
    · have hb : ((a, b).1 != k) = false := by simp [bne, hp]
      rw [hb]
      simpa using ih
    · have hb : ((a, b).1 != k) = true := by simp [bne, hp]
      rw [hb]
      simp only [List.lookup, beq_eq_false_iff_ne.mpr (Ne.symm hp)]
      exact ih

theorem lockHeld_fresh_entry (t : SessionTable) (k : String) (h : t.lookup k = none) :
    lockHeld (t ++ [(k, false)]) k = false := by
  unfold lockHeld
  rw [List.lookup_append, h]
  simp [List.lookup]

theorem sessionRun_not_rejected {A E : Type} (u : SessionTable) (k : String)
    (body : Except E A) (h : u.lookup k = none) :
    (sessionRun u k body).1 ≠ SessionOutcome.rejected := by
  have hfree : lockHeld (getSessionLockTable u k) k = false := by
    unfold getSessionLockTable
    rw [h]
    exact lockHeld_fresh_entry u k h
  unfold sessionRun
  rw [if_neg (by rw [hfree]; simp)]
  cases body <;> simp

theorem claim_C5_session_guard {A E : Type} (t : SessionTable) (k : String)
    (body body' : Except E A) :
    (lockHeld t k = true → sessionRun t k body = (SessionOutcome.rejected, t)) ∧
    (lockHeld t k = false →
      (sessionRun t k body).1 = (match body with
        | Except.ok a => SessionOutcome.completed a
        | Except.error e => SessionOutcome.errored e) ∧
      ((sessionRun t k body).2).lookup k = none ∧
      (sessionRun (sessionRun t k body).2 k body').1 ≠ SessionOutcome.rejected) := by
  constructor
  · intro hheld
    have hlk : t.lookup k = some true := by
      unfold lockHeld at hheld
      cases h : t.lookup k with
      | none => rw [h] at hheld; simp at hheld
      | some b => rw [h] at hheld; simp at hheld; rw [hheld]
    have ht1 : getSessionLockTable t k = t := by
      unfold getSessionLockTable
      rw [hlk]
    unfold sessionRun
    rw [ht1, if_pos hheld]
  · intro hfree
    have hfree1 : lockHeld (getSessionLockTable t k) k = false := by
      unfold getSessionLockTable
      cases h : t.lookup k with
      | none => exact lockHeld_fresh_entry t k h
      | some b =>
        unfold lockHeld at hfree ⊢
        rw [h] at hfree ⊢
        exact hfree
    have h1 : (sessionRun t k body).1 = (match body with
        | Except.ok a => SessionOutcome.completed a
        | Except.error e => SessionOutcome.errored e) := by
      unfold sessionRun
      rw [if_neg (by rw [hfree1]; simp)]
      cases body <;> rfl
    have h2 : (sessionRun t k body).2 =
        cleanupSession (acquireIn (getSessionLockTable t k) k) k := by
      unfold sessionRun
      rw [if_neg (by rw [hfree1]; simp)]
    have hnone : ((sessionRun t k body).2).lookup k = none := by
      rw [h2]
      exact lookup_cleanup_none _ k
    exact ⟨h1, hnone, sessionRun_not_rejected _ k body' hnone⟩

/-- Witness for C5: a held lock rejects and leaves the table unchanged; a
free table runs the (throwing) body and removes the entry afterwards. -/
theorem claim_C5_session_guard_witness :
    sessionRun [("u:q", true)] "u:q" (Except.ok 1 : Except String Nat) =
      (SessionOutcome.rejected, [("u:q", true)]) ∧
    ((sessionRun ([] : SessionTable) "u:q"
        (Except.error "boom" : Except String Nat)).2).lookup "u:q" = none :=
  ⟨(claim_C5_session_guard [("u:q", true)] "u:q" (Except.ok 1) (Except.ok 1)).1 (by decide),
   ((claim_C5_session_guard [] "u:q" (Except.error "boom") (Except.ok 1)).2 (by decide)).2.1⟩

theorem validFindings_eq_filterMap (results : List (Except String SubAgentFindings)) :
    ∀ init, results.foldl (fun acc r => match r with
        | Except.error _ => acc
        | Except.ok f => acc ++ [f]) init =
      init ++ results.filterMap (fun r => match r with
        | Except.error _ => none
        | Except.ok f => some f) := by
  induction results with
  | nil => intro init; simp
  | cons r rest ih =>
    intro init
    cases r with
    | error e => simp [List.filterMap_cons, ih]
    | ok f => simp [List.filterMap_cons, ih]

/-- **C6** — In the `deep_research` coordinator: sub-agent outcomes are
joined `gather`-style with per-task exception isolation (each contributes
an independent `Except`, so one failure does not cancel its siblings); a
failed sub-agent is simply excluded from the merge (dropping an exception
from the result list leaves the merged findings unchanged); synthesis runs
exactly once whenever at least one sub-agent succeeded, over exactly the
surviving findings; and when every sub-agent fails the coordinator returns
the distinct all-failed outcome without synthesizing. -/
theorem claim_C6_coordinator (results rs1 rs2 : List (Except String SubAgentFindings))
    (e : String) (synth : List SubAgentFindings → String) :
    validFindings (rs1 ++ Except.error e :: rs2) = validFindings (rs1 ++ rs2) ∧
    ((∃ f, Except.ok f ∈ results) →
      coordinatorMerge results synth = (synth (validFindings results), 1)) ∧
    ((∀ r ∈ results, ∃ err, r = Except.error err) →
      coordinatorMerge results synth = (allFailedMsg, 0)) := by
  have hv : ∀ (l : List (Except String SubAgentFindings)),
      validFindings l = l.filterMap (fun r => match r with
        | Except.error _ => none
        | Except.ok f => some f) := by
    intro l
    have := validFindings_eq_filterMap l []
    simpa [validFindings] using this
  refine ⟨?_, ?_, ?_⟩
  · rw [hv, hv]
    simp [List.filterMap_append, List.filterMap_cons]
  · rintro ⟨f, hf⟩
    have hne : validFindings results ≠ [] := by
      rw [hv]
      intro hnil
      have : f ∈ results.filterMap (fun r => match r with
          | Except.error _ => none
          | Except.ok f => some f) :=
        List.mem_filterMap.mpr ⟨Except.ok f, hf, rfl⟩
      rw [hnil] at this
      exact absurd this (List.not_mem_nil f)
    unfold coordinatorMerge
    rw [if_neg (by simpa [List.isEmpty_iff] using hne)]
  · intro hall
    have hnil : validFindings results = [] := by
      rw [hv]
      rw [List.filterMap_eq_nil_iff]
      intro r hr
      obtain ⟨err, rfl⟩ := hall r hr
      rfl
    unfold coordinatorMerge
    rw [if_pos (by simp [hnil])]

/-- Witness for C6: three objectives, the middle sub-agent throws — the
survivors are merged in order and synthesis runs once; a run where all
three throw yields the all-failed outcome with no synthesis. -/
theorem claim_C6_coordinator_witness :
    (validFindings [Except.ok ⟨"o1", 1, "f1", [], 0⟩,
        Except.error "net down", Except.ok ⟨"o3", 2, "f3", [], 0⟩] =
      validFindings [Except.ok ⟨"o1", 1, "f1", [], 0⟩, Except.ok ⟨"o3", 2, "f3", [], 0⟩]) ∧
    (coordinatorMerge [Except.ok ⟨"o1", 1, "f1", [], 0⟩,
        Except.error "net down", Except.ok ⟨"o3", 2, "f3", [], 0⟩]
        (fun fs => toString fs.length) =
      (toString (validFindings [Except.ok ⟨"o1", 1, "f1", [], 0⟩,
        Except.error "net down", Except.ok ⟨"o3", 2, "f3", [], 0⟩]).length, 1)) ∧
    (coordinatorMerge [(Except.error "a" : Except String SubAgentFindings),
        Except.error "b", Except.error "c"] (fun fs => toString fs.length) =
      (allFailedMsg, 0)) := by
  have h1 := claim_C6_coordinator
    [Except.ok ⟨"o1", 1, "f1", [], 0⟩, Except.error "net down", Except.ok ⟨"o3", 2, "f3", [], 0⟩]
    [Except.ok ⟨"o1", 1, "f1", [], 0⟩] [Except.ok ⟨"o3", 2, "f3", [], 0⟩]
    "net down" (fun fs => toString fs.length)
  have h2 := claim_C6_coordinator
    [(Except.error "a" : Except String SubAgentFindings), Except.error "b", Except.error "c"]
    [] [] "a" (fun fs => toString fs.length)
  refine ⟨h1.1, h1.2.1 ⟨⟨"o1", 1, "f1", [], 0⟩, by simp⟩, h2.2.2 ?_⟩
  intro r hr
  simp at hr
  rcases hr with h | h | h <;> exact ⟨_, h⟩

/-- **C10** — a document with empty (or missing, modelled as empty) `text`
contributes nothing to the accumulated state: deleting it from a round's
results leaves the source accumulator unchanged (hence also the
`SOURCES_CONSULTED` count, which is the accumulator's length) and leaves
the evaluation prompt's `iteration_content` block unchanged; and in the
multi-agent sub-agents, deleting a crawled result with empty text leaves
the `sources_list` unchanged. -/
theorem claim_C10_empty_text (init : List SourceEntry) (pre suf : List Doc) (d : Doc)
    (init' : List String) (pre' suf' : List CrawlResult) (r : CrawlResult)
    (hd : d.text = "") (hr : r.text = "") :
    (pre ++ d :: suf).foldl addDoc init = (pre ++ suf).foldl addDoc init ∧
    contentEntries (pre ++ d :: suf) = contentEntries (pre ++ suf) ∧
    appendCrawlSources init' (pre' ++ r :: suf') = appendCrawlSources init' (pre' ++ suf') := by
  refine ⟨?_, ?_, ?_⟩
  · rw [List.foldl_append, List.foldl_append, List.foldl_cons]
    have : addDoc (pre.foldl addDoc init) d = pre.foldl addDoc init := by
      unfold addDoc
      rw [if_neg (by simp [hd])]
    rw [this]
  · unfold contentEntries
    rw [List.foldl_append, List.foldl_append, List.foldl_cons]
    rw [if_neg (by simp [hd])]
  · unfold appendCrawlSources
    rw [List.foldl_append, List.foldl_append, List.foldl_cons]
    rw [if_neg (by simp [hr])]

/-- Witness for C10: an empty-text document between two real ones changes
neither the accumulator nor the content block; an empty-text crawl result
adds no source. -/
theorem claim_C10_empty_text_witness :
    ([⟨"u1", "t1", "xx", none⟩, ⟨"u2", "t2", "", none⟩] ++ [⟨"u3", "t3", "yy", none⟩] :
        List Doc).foldl addDoc [] =
      ([⟨"u1", "t1", "xx", none⟩] ++ [⟨"u3", "t3", "yy", none⟩] : List Doc).foldl addDoc [] ∧
    contentEntries ([⟨"u1", "t1", "xx", none⟩, ⟨"u2", "t2", "", none⟩] ++
        [⟨"u3", "t3", "yy", none⟩]) =
      contentEntries ([⟨"u1", "t1", "xx", none⟩] ++ [⟨"u3", "t3", "yy", none⟩]) ∧
    appendCrawlSources [] ([⟨"u1", "t1", "xx"⟩, ⟨"u2", "t2", ""⟩] ++ [⟨"u3", "t3", "yy"⟩]) =
      appendCrawlSources [] ([⟨"u1", "t1", "xx"⟩] ++ [⟨"u3", "t3", "yy"⟩]) := by
  have h := claim_C10_empty_text [] [⟨"u1", "t1", "xx", none⟩] [⟨"u3", "t3", "yy", none⟩]
    ⟨"u2", "t2", "", none⟩ [] [⟨"u1", "t1", "xx"⟩] [⟨"u3", "t3", "yy"⟩] ⟨"u2", "t2", ""⟩
    rfl rfl
  exact h

theorem pyGet_cons_self (k : String) (v : Json) (cfg : List (String × Json)) :
    pyGet ((k, v) :: cfg) k = pyVal v := by
  unfold pyGet pyVal
  have h : List.lookup k ((k, v) :: cfg) = some v := by simp [List.lookup]
  rw [h]
  cases v <;> rfl

theorem pyGet_cons_ne (k' k : String) (v : Json) (cfg : List (String × Json))
    (h : k' ≠ k) : pyGet ((k', v) :: cfg) k = pyGet cfg k := by
  unfold pyGet
  have hl : List.lookup k ((k', v) :: cfg) = List.lookup k cfg := by
    simp only [List.lookup, beq_eq_false_iff_ne.mpr (Ne.symm h)]
  rw [hl]

theorem mem_valSearchType (o : Option Json) : valSearchType o ∈ validSearchTypes := by
  rcases o with _ | j
  · simp [valSearchType, validSearchTypes]
  · cases j
    case str s =>
      simp only [valSearchType]
      split_ifs with h
      · exact h
      · simp [validSearchTypes]
    all_goals simp [valSearchType, validSearchTypes]

theorem valCategory_mem (o : Option Json) (s : String) (h : valCategory o = some s) :
    s ∈ validCategories := by
  rcases o with _ | j
  · exact absurd h (by simp [valCategory])
  · cases j
    case str s' =>
      simp only [valCategory] at h
      split_ifs at h with hmem
      cases h
      exact hmem
    all_goals exact absurd h (by simp [valCategory])

theorem valNumResults_bounds (o : Option Json) :
    1 ≤ valNumResults o ∧ valNumResults o ≤ 25 := by
  rcases o with _ | j
  · simp [valNumResults]
  · cases j
    case int n =>
      unfold valNumResults
      exact ⟨le_max_left 1 _, max_le (by norm_num) (min_le_left 25 n)⟩
    case bool b =>
      cases b <;> unfold valNumResults <;> norm_num
    all_goals simp [valNumResults]

theorem valDate_matches (o : Option Json) (s : String) (h : valDate o = some s) :
    matchesDatePy s = true := by
  rcases o with _ | j
  · exact absurd h (by simp [valDate])
  · cases j
    case str s' =>
      simp only [valDate] at h
      split_ifs at h with hc
      cases h
      simp only [Bool.and_eq_true, decide_eq_true_eq] at hc
      exact hc.2
    all_goals exact absurd h (by simp [valDate])

theorem valIncludeText_le (o : Option Json) (s : String)
    (h : valIncludeText o = some s) : (pySplit s).length ≤ 5 := by
  rcases o with _ | j
  · exact absurd h (by simp [valIncludeText])
  · cases j
    case str s' =>
      simp only [valIncludeText] at h
      split_ifs at h with hc
      cases h
      exact hc
    all_goals exact absurd h (by simp [valIncludeText])

theorem valQueries_ne (o : Option Json) (q : String) (h : q ∈ valQueries o) :
    q ≠ "" := by
  rcases o with _ | j
  · exact absurd h (by simp [valQueries])
  · cases j
    case arr xs =>
      simp only [valQueries] at h
      obtain ⟨j, hjm, hj⟩ := List.mem_filterMap.mp h
      cases j
      case str s =>
        dsimp only at hj
        split_ifs at hj with hs
        cases hj
        intro hq
        rw [hq] at hs
        exact hs rfl
      all_goals simp at hj
    all_goals exact absurd h (by simp [valQueries])

/-- **C2** — `_parse_search_config` never raises (it is a total function of
the extraction outcome, where `none` covers both "no JSON found" and
"`json.loads` raised"), and its result always lies in the declared domain;
moreover validation is per-field: setting one key of the dict to an
arbitrary value `v` changes only that field — which becomes its own
validator applied to `v` — while every sibling field is kept, and each
validator maps any invalid value to that field's default. -/
theorem claim_C2_parse_config :
    (∀ extracted : Option (List (String × Json)),
      configInDomain (parseSearchConfig extracted)) ∧
    (∀ (cfg : List (String × Json)) (v : Json),
      parseSearchConfig (some (("search_type", v) :: cfg)) =
        { parseSearchConfig (some cfg) with search_type := valSearchType (pyVal v) } ∧
      parseSearchConfig (some (("category", v) :: cfg)) =
        { parseSearchConfig (some cfg) with category := valCategory (pyVal v) } ∧
      parseSearchConfig (some (("num_results", v) :: cfg)) =
        { parseSearchConfig (some cfg) with num_results := valNumResults (pyVal v) } ∧
      parseSearchConfig (some (("start_published_date", v) :: cfg)) =
        { parseSearchConfig (some cfg) with start_published_date := valDate (pyVal v) } ∧
      parseSearchConfig (some (("end_published_date", v) :: cfg)) =
        { parseSearchConfig (some cfg) with end_published_date := valDate (pyVal v) } ∧
      parseSearchConfig (some (("include_domains", v) :: cfg)) =
        { parseSearchConfig (some cfg) with include_domains := valDomains (pyVal v) } ∧
      parseSearchConfig (some (("exclude_domains", v) :: cfg)) =
        { parseSearchConfig (some cfg) with exclude_domains := valDomains (pyVal v) } ∧
      parseSearchConfig (some (("include_text", v) :: cfg)) =
        { parseSearchConfig (some cfg) with include_text := valIncludeText (pyVal v) } ∧
      parseSearchConfig (some (("queries", v) :: cfg)) =
        { parseSearchConfig (some cfg) with queries := valQueries (pyVal v) }) ∧
    ((∀ o : Option Json, (∀ s, o = some (Json.str s) → s ∉ validSearchTypes) →
        valSearchType o = defaultConfig.search_type) ∧
     (∀ o : Option Json, (∀ s, o = some (Json.str s) → s ∉ validCategories) →
        valCategory o = defaultConfig.category) ∧
     (∀ o : Option Json, (∀ n, o ≠ some (Json.int n)) → (∀ b, o ≠ some (Json.bool b)) →
        valNumResults o = defaultConfig.num_results) ∧
     (∀ o : Option Json, (∀ s, o = some (Json.str s) → s = "" ∨ matchesDatePy s = false) →
        valDate o = none) ∧
     (∀ o : Option Json, (∀ xs, o ≠ some (Json.arr xs)) → valDomains o = none) ∧
     (∀ o : Option Json, (∀ s, o = some (Json.str s) → 5 < (pySplit s).length) →
        valIncludeText o = none) ∧
     (∀ o : Option Json, (∀ xs, o ≠ some (Json.arr xs)) →
        valQueries o = defaultConfig.queries)) := by
  refine ⟨?_, ?_, ?_, ?_, ?_, ?_, ?_, ?_, ?_⟩
  · intro extracted
    rcases extracted with _ | cfg
    · exact ⟨by simp [defaultConfig, parseSearchConfig, validSearchTypes],
        fun s h => by simp [defaultConfig, parseSearchConfig] at h,
        by norm_num [defaultConfig, parseSearchConfig],
        by norm_num [defaultConfig, parseSearchConfig],
        fun s h => by simp [defaultConfig, parseSearchConfig] at h,
        fun s h => by simp [defaultConfig, parseSearchConfig] at h,
        fun s h => by simp [defaultConfig, parseSearchConfig] at h,
        fun q hq => by simp [defaultConfig, parseSearchConfig] at hq⟩
    · exact ⟨mem_valSearchType _, fun s h => valCategory_mem _ s h,
        (valNumResults_bounds _).1, (valNumResults_bounds _).2,
        fun s h => valDate_matches _ s h, fun s h => valDate_matches _ s h,
        fun s h => valIncludeText_le _ s h, fun q hq => valQueries_ne _ q hq⟩
  · intro cfg v
    refine ⟨?_, ?_, ?_, ?_, ?_, ?_, ?_, ?_, ?_⟩ <;>
      · simp only [parseSearchConfig]
        congr 1
        rw [pyGet_cons_self]
  · intro o h
    rcases o with _ | j
    · rfl
    · cases j
      case str s =>
        simp only [valSearchType]
        rw [if_neg (h s rfl)]
        rfl
      all_goals rfl
  · intro o h
    rcases o with _ | j
    · rfl
    · cases j
      case str s =>
        simp only [valCategory]
        rw [if_neg (h s rfl)]
        rfl
      all_goals rfl
  · intro o h1 h2
    rcases o with _ | j
    · rfl
    · cases j
      case int n => exact absurd rfl (h1 n)
      case bool b => exact absurd rfl (h2 b)
      all_goals rfl
  · intro o h
    rcases o with _ | j
    · rfl
    · cases j
      case str s =>
        simp only [valDate]
        rw [if_neg (by rcases h s rfl with h' | h' <;> simp [h'])]
      all_goals rfl
  · intro o h
    rcases o with _ | j
    · rfl
    · cases j
      case arr xs => exact absurd rfl (h xs)
      all_goals rfl
  · intro o h
    rcases o with _ | j
    · rfl
    · cases j
      case str s =>
        simp only [valIncludeText]
        rw [if_neg (by have := h s rfl; omega)]
      all_goals rfl
  · intro o h
    rcases o with _ | j
    · rfl
    · cases j
      case arr xs => exact absurd rfl (h xs)
      all_goals rfl

/-- Witness for C2: a dict with valid `search_type`, an out-of-range
`num_results` and a partially junk `queries` list parses into the domain;
setting `search_type` to the integer 7 leaves the valid `category` sibling
untouched and falls back to the `search_type` default. -/
theorem claim_C2_parse_config_witness :
    configInDomain (parseSearchConfig (some
      [("search_type", Json.str "neural"), ("num_results", Json.int 99),
       ("queries", Json.arr [Json.str "a", Json.int 3])])) ∧
    parseSearchConfig (some (("search_type", Json.int 7) ::
        [("category", Json.str "news")])) =
      { parseSearchConfig (some [("category", Json.str "news")]) with
        search_type := valSearchType (pyVal (Json.int 7)) } ∧
    valSearchType (some (Json.int 7)) = defaultConfig.search_type := by
  refine ⟨claim_C2_parse_config.1 _, (claim_C2_parse_config.2.1 _ _).1, ?_⟩
  exact claim_C2_parse_config.2.2.1 (some (Json.int 7)) (fun s h => by cases h)

theorem loopGo_iteration_le (env : Nat → RoundEnv) :
    ∀ (fuel : Nat) (st : LoopState),
      (loopGo env fuel st).iteration ≤ st.iteration + fuel := by
  intro fuel
  induction fuel with
  | zero => intro st; simp [loopGo]
  | succ n ih =>
    intro st
    simp only [loopGo]
    split_ifs <;>
      first
        | exact le_trans (ih _) (by simp; omega)
        | simp

/-- **C1** — For every `max_iterations = N ≥ 1` and every sequence of round
environments — search results, LLM response texts (including responses
that always decide CONTINUE) and extracted config dicts — the single-agent
loop of `_execute_agentic_search` executes at most `N` rounds: the `while`
guard is the iteration counter, which increases by exactly one each round,
so the final counter (the number of executed rounds) never exceeds `N`.
Termination itself is witnessed by `loopGo` being a total function of the
fuel `max_iterations - iteration`.  (A round whose LLM call exhausts its
retries aborts the whole session even earlier, so the bound also covers
that path.) -/
theorem claim_C1_loop_bounded (N : Nat) (env : Nat → RoundEnv) (query : String)
    (_hN : 1 ≤ N) :
    (runAgenticLoop env N query).iteration ≤ N := by
  have h := loopGo_iteration_le env N (initialLoopState query)
  simpa [runAgenticLoop, initialLoopState] using h

/-- Witness for C1 at `N = 2` with an environment that always answers
CONTINUE and always supplies a fresh query: the loop still stops after at
most 2 rounds. -/
theorem claim_C1_loop_bounded_witness :
    (runAgenticLoop
      (fun _ => ⟨[], "DECISION: CONTINUE",
        some [("queries", Json.arr [Json.str "next query"])]⟩)
      2 "q").iteration ≤ 2 :=
  claim_C1_loop_bounded 2
    (fun _ => ⟨[], "DECISION: CONTINUE",
      some [("queries", Json.arr [Json.str "next query"])]⟩)
    "q" (by norm_num)

theorem url_mem_addDoc (init : List SourceEntry) (d : Doc) (u : String) :
    (∃ s ∈ addDoc init d, s.url = u) ↔
      ((∃ s ∈ init, s.url = u) ∨ (d.url = u ∧ d.text ≠ "")) := by
  by_cases ht : d.text = ""
  · rw [addDoc, if_neg (by simp [ht])]
    simp [ht]
  · by_cases ha : init.any (fun s => s.url == d.url) = true
    · rw [addDoc, if_pos ht, if_pos ha]
      constructor
      · exact Or.inl
      · rintro (h | ⟨hu, _⟩)
        · exact h
        · obtain ⟨s, hs, hbeq⟩ := List.any_eq_true.mp ha
          exact ⟨s, hs, by subst hu; simpa using hbeq⟩
    · rw [addDoc, if_pos ht, if_neg ha]
      constructor
      · rintro ⟨s, hs, hu⟩
        rcases List.mem_append.mp hs with h | h
        · exact Or.inl ⟨s, h, hu⟩
        · have hsd : s = ⟨d.url, d.title⟩ := by simpa using h
          subst hsd
          exact Or.inr ⟨hu, ht⟩
      · rintro (⟨s, hs, hu⟩ | ⟨hu, _⟩)
        · exact ⟨s, List.mem_append.mpr (Or.inl hs), hu⟩
        · exact ⟨⟨d.url, d.title⟩, List.mem_append.mpr (Or.inr (by simp)), hu⟩

theorem mem_url_foldl (ds : List Doc) :
    ∀ (init : List SourceEntry) (u : String),
      (∃ s ∈ ds.foldl addDoc init, s.url = u) ↔
      ((∃ s ∈ init, s.url = u) ∨ ∃ d ∈ ds, d.url = u ∧ d.text ≠ "") := by
  induction ds with
  | nil => intro init u; simp
  | cons d rest ih =>
    intro init u
    rw [List.foldl_cons, ih, url_mem_addDoc]
    constructor
    · rintro ((h | h) | h)
      · exact Or.inl h
      · exact Or.inr ⟨d, List.mem_cons_self d rest, h.1, h.2⟩
      · obtain ⟨d', hd', hu, htxt⟩ := h
        exact Or.inr ⟨d', List.mem_cons_of_mem _ hd', hu, htxt⟩
    · rintro (h | ⟨d', hd', hu, htxt⟩)
      · exact Or.inl (Or.inl h)
      · rcases List.mem_cons.mp hd' with rfl | hmem
        · exact Or.inl (Or.inr ⟨hu, htxt⟩)
        · exact Or.inr ⟨d', hmem, hu, htxt⟩

theorem nodup_addDoc (init : List SourceEntry) (d : Doc)
    (h : (init.map SourceEntry.url).Nodup) :
    ((addDoc init d).map SourceEntry.url).Nodup := by
  by_cases ht : d.text = ""
  · rw [addDoc, if_neg (by simp [ht])]
    exact h
  · by_cases ha : init.any (fun s => s.url == d.url) = true
    · rw [addDoc, if_pos ht, if_pos ha]
      exact h
    · rw [addDoc, if_pos ht, if_neg ha]
      rw [List.map_append, List.nodup_append]
      refine ⟨h, List.nodup_singleton _, ?_⟩
      intro u hu hmem
      have hud : u = d.url := by simpa using hmem
      subst hud
      obtain ⟨s, hs, hu'⟩ := List.mem_map.mp hu
      exact ha (List.any_eq_true.mpr ⟨s, hs, by simp [hu']⟩)

theorem nodup_foldl_addDoc (ds : List Doc) :
    ∀ init, (init.map SourceEntry.url).Nodup →
      ((ds.foldl addDoc init).map SourceEntry.url).Nodup := by
  induction ds with
  | nil => intro init h; simpa using h
  | cons d rest ih =>
    intro init h
    rw [List.foldl_cons]
    exact ih _ (nodup_addDoc init d h)

theorem foldl_addDoc_extends (ds : List Doc) :
    ∀ init, ∃ t, ds.foldl addDoc init = init ++ t := by
  induction ds with
  | nil => intro init; exact ⟨[], by simp⟩
  | cons d rest ih =>
    intro init
    rw [List.foldl_cons]
    have h1 : ∃ t1, addDoc init d = init ++ t1 := by
      by_cases ht : d.text = ""
      · exact ⟨[], by rw [addDoc, if_neg (by simp [ht])]; simp⟩
      · by_cases ha : init.any (fun s => s.url == d.url) = true
        · exact ⟨[], by rw [addDoc, if_pos ht, if_pos ha]; simp⟩
        · exact ⟨[⟨d.url, d.title⟩], by rw [addDoc, if_pos ht, if_neg ha]⟩
    obtain ⟨t1, h1⟩ := h1
    obtain ⟨t2, h2⟩ := ih (init ++ t1)
    exact ⟨t1 ++ t2, by rw [h1, h2, List.append_assoc]⟩

theorem foldl_addDoc_first_wins (ds : List Doc) :
    ∀ s ∈ ds.foldl addDoc [],
      ∃ d, ds.find? (fun d => d.url == s.url && d.text != "") = some d ∧
        d.url = s.url ∧ d.title = s.title := by
  induction ds using List.reverseRecOn with
  | nil => intro s hs; simp at hs
  | append_singleton ds d ih =>
    intro s hs
    rw [List.foldl_append] at hs
    simp only [List.foldl_cons, List.foldl_nil] at hs
    by_cases ht : d.text = ""
    · rw [addDoc, if_neg (by simp [ht])] at hs
      obtain ⟨d0, hfind, hurl, htitle⟩ := ih s hs
      refine ⟨d0, ?_, hurl, htitle⟩
      rw [List.find?_append, hfind]
      rfl
    · by_cases ha : (ds.foldl addDoc []).any (fun s' => s'.url == d.url) = true
      · rw [addDoc, if_pos ht, if_pos ha] at hs
        obtain ⟨d0, hfind, hurl, htitle⟩ := ih s hs
        refine ⟨d0, ?_, hurl, htitle⟩
        rw [List.find?_append, hfind]
        rfl
      · rw [addDoc, if_pos ht, if_neg ha] at hs
        rcases List.mem_append.mp hs with hin | hnew
        · obtain ⟨d0, hfind, hurl, htitle⟩ := ih s hin
          refine ⟨d0, ?_, hurl, htitle⟩
          rw [List.find?_append, hfind]
          rfl
        · have hse : s = ⟨d.url, d.title⟩ := by simpa using hnew
          subst hse
          refine ⟨d, ?_, rfl, rfl⟩
          have hnone : ds.find? (fun x => x.url == SourceEntry.url ⟨d.url, d.title⟩ &&
              x.text != "") = none := by
            rw [List.find?_eq_none]
            intro x hx hpx
            simp only [Bool.and_eq_true] at hpx
            have hurl : x.url = d.url := by simpa using hpx.1
            have htext : x.text ≠ "" := by simpa using hpx.2
            obtain ⟨s', hs', hu⟩ := (mem_url_foldl ds [] d.url).mpr
              (Or.inr ⟨x, hx, hurl, htext⟩)
            exact ha (List.any_eq_true.mpr ⟨s', hs', by simp [hu]⟩)
          rw [List.find?_append, hnone]
          have htb : (d.text != "") = true := by simpa using ht
          simp [List.find?, htb]

/-- **C9** — the source accumulator of `_execute_agentic_search`: folding
any stream of search results (the concatenation of all rounds' results —
each round folds its documents into the previous accumulator, so the whole
session is one fold) yields (1) at most one entry per distinct url, (2) for
each entry, the `(url, title)` of the first document with that url that the
accumulator observed — i.e. the first with truthy `text`, since documents
with empty text never reach the dedup check (cf. C10) — and (3) a list
that extends the previous accumulator: entries are appended, never mutated
or removed. -/
theorem claim_C9_dedup_accumulator (docs ds : List Doc) (init : List SourceEntry) :
    ((docs.foldl addDoc []).map SourceEntry.url).Nodup ∧
    (∀ s ∈ docs.foldl addDoc [],
      ∃ d, docs.find? (fun d => d.url == s.url && d.text != "") = some d ∧
        d.url = s.url ∧ d.title = s.title) ∧
    (∃ t, ds.foldl addDoc init = init ++ t) :=
  ⟨nodup_foldl_addDoc docs [] (by simp), foldl_addDoc_first_wins docs,
    foldl_addDoc_extends ds init⟩

/-- Witness for C9: two documents sharing a url — the accumulator keeps a
single entry whose title is the first document's, and it is returned by the
first-insertable search. -/
theorem claim_C9_dedup_accumulator_witness :
    (([⟨"u", "t1", "xx", none⟩, ⟨"u", "t2", "yy", none⟩] : List Doc).foldl addDoc []) =
      [⟨"u", "t1"⟩] ∧
    (∃ d, ([⟨"u", "t1", "xx", none⟩, ⟨"u", "t2", "yy", none⟩] : List Doc).find?
        (fun d => d.url == "u" && d.text != "") = some d ∧
        d.url = "u" ∧ d.title = "t1") := by
  constructor
  · decide
  · have h := (claim_C9_dedup_accumulator
      [⟨"u", "t1", "xx", none⟩, ⟨"u", "t2", "yy", none⟩] [] []).2.1
    exact h ⟨"u", "t1"⟩ (by decide)

end AgenticSearch
